import Mathlib

/-!
Verification of the pullsheet ingestion, caching and filtering pipeline
(`pkg/repo/pr.go`, `pkg/repo/issue.go`, `pkg/ghcache`, `pkg/leaderboard`).

Modelling conventions:
* Go strings are modelled as `List Nat` (sequences of byte/rune codes);
  `strings.ToLower` is modelled on the ASCII range, which is the range the
  claims are about (`lowerCode`).
* `time.Time` is modelled as a plain `Nat`; the Go zero time is `0`
  (`t.IsZero()` becomes `t = 0`), `Before` is `<` and `After` is `>`.
* Network/cache effects are modelled by passing the outcome of the remote
  call or cache lookup as an explicit function argument (`get`, `server`),
  so the pipelines become pure functions of the data they observe.
-/

namespace Pullsheet

/-- A Go string, as a list of byte/rune codes. -/
abbrev GoString := List Nat

/-- A Go `error` value (only its presence matters to the modelled code). -/
abbrev GoErr := GoString

/-- `strings.ToLower`, per character, on the ASCII range (A-Z ↦ a-z). -/
def lowerCode (c : Nat) : Nat :=
  if 65 ≤ c ∧ c ≤ 90 then c + 32 else c

/-- `strings.ToLower` on a whole string. -/
def toLower (s : GoString) : GoString := s.map lowerCode

/-- Does `c` code an uppercase ASCII letter? -/
def isUpperCode (c : Nat) : Bool := decide (65 ≤ c ∧ c ≤ 90)

/-- Does the string contain an uppercase ASCII letter? -/
def hasUpper (s : GoString) : Bool := s.any isUpperCode

/-- `strings.HasPrefix pat s` style check: `pat` begins the string. -/
def startsWith : GoString → GoString → Bool
  | [], _ => true
  | _ :: _, [] => false
  | p :: ps, c :: cs => p == c && startsWith ps cs

/-- Substring containment (used to model regexp alternatives without
metacharacters, matched anywhere in the subject). -/
def containsSub (pat : GoString) : GoString → Bool
  | [] => startsWith pat []
  | c :: rest => startsWith pat (c :: rest) || containsSub pat rest

/-- `strings.HasSuffix s pat` : `pat` ends the string `s`. -/
def endsWith (pat s : GoString) : Bool := startsWith pat.reverse s.reverse

/-- "closed" -/
def strClosed : GoString := [99, 108, 111, 115, 101, 100]

/-- "bot" -/
def strBot : GoString := [98, 111, 116]

/-- "changelog" -/
def strChangelogLower : GoString := [99, 104, 97, 110, 103, 101, 108, 111, 103]

/-- "CHANGELOG" -/
def strChangelogUpper : GoString := [67, 72, 65, 78, 71, 69, 76, 79, 71]

/-- "Gopkg" -/
def strGopkg : GoString := [71, 111, 112, 107, 103]

/-- "toml" -/
def strToml : GoString := [116, 111, 109, 108]

/-- Matcher for the `Gopkg.toml` alternative of `truncRe`: the `.` is a
regexp wildcard, so a window `Gopkg?toml` (10 characters, any non-newline
character in the middle) anywhere in the string matches.  Go's `.` does not
match a newline. -/
def matchGopkgToml : GoString → Bool
  | [] => false
  | c :: rest =>
    (startsWith strGopkg (c :: rest)
        && decide (10 ≤ (c :: rest : GoString).length)
        && ((c :: rest : GoString).get? 5 != some 10)
        && startsWith strToml ((c :: rest : GoString).drop 6))
      || matchGopkgToml rest

/-- `truncRe = regexp.MustCompile("changelog|CHANGELOG|Gopkg.toml")`,
as a matcher: does the filename match the generated/changelog-like
pattern? (`pr.go` line 35). -/
def truncMatch (s : GoString) : Bool :=
  containsSub strChangelogLower s || containsSub strChangelogUpper s || matchGopkgToml s

/-- The fields of `github.PullRequest` read by the pipeline.  The same
type stands for the partial objects returned by the list endpoint and the
full objects returned by the detail endpoint, as in the source (both are
`*github.PullRequest`).  Go getters on nil sub-objects return zero
values, so `GetUser().GetLogin()` and `GetBase().GetRef()` are plain
string fields here. -/
structure PullRequest where
  number : Nat
  title : GoString
  body : GoString
  state : GoString
  createdAt : Nat
  updatedAt : Nat
  closedAt : Nat
  mergedAt : Nat
  merged : Bool
  mergeCommitSHA : GoString
  baseRef : GoString
  userLogin : GoString
  htmlURL : GoString
  changedFiles : Nat
deriving DecidableEq

/-- The fields of `github.Issue` read by the pipeline.
`isPullRequest` models `Issue.IsPullRequest()` (`PullRequestLinks != nil`);
`closedByLogin = none` models a nil `ClosedBy`. -/
structure Issue where
  number : Nat
  title : GoString
  state : GoString
  isPullRequest : Bool
  updatedAt : Nat
  closedAt : Nat
  createdAt : Nat
  userLogin : GoString
  closedByLogin : Option GoString
  htmlURL : GoString
deriving DecidableEq

/-- One file of a pull request diff (`github.CommitFile`). -/
structure CommitFile where
  filename : GoString
  additions : Nat
  deletions : Nat
deriving DecidableEq

/-- Outcome of one loop iteration of a filter pipeline: `stop` models
`break`, `skip` models `continue`, `emit` models `result = append(...)`. -/
inductive Step (β : Type) where
  | stop
  | skip
  | emit (b : β)
deriving DecidableEq

/-- Runs a filter-pipeline loop body over the fetched listing:
`break` discards the rest of the list, `continue` moves on, `emit`
appends.  This is the shared shape of the loops in `MergedPulls`
(`pr.go` 140-235) and `issues` (`issue.go` 207-284). -/
def runPipeline {α β : Type} (step : α → Step β) : List α → List β
  | [] => []
  | x :: xs =>
    match step x with
    | .stop => []
    | .skip => runPipeline step xs
    | .emit b => b :: runPipeline step xs

/-- The `asOfTime` computed by `MergedPulls` for the cache fetch
(`pr.go` 188-195): merged time, else closed time, else updated time. -/
def prCacheTime (pr : PullRequest) : Nat :=
  if pr.mergedAt ≠ 0 then pr.mergedAt
  else if pr.closedAt ≠ 0 then pr.closedAt
  else pr.updatedAt

/-- Modelled from the spec: `isBot` is called by `MergedPulls`
(`pr.go` line 174) but its definition is not under `src/`.  The spec says
the bot rule rejects an item when "the acting user's login has a
recognized bot suffix", with example login "deploy-bot", so `isBot` is
modelled as the login ending in the suffix "bot". -/
def isBot (login : GoString) : Bool := endsWith strBot login

/-- Filters 6-8 of `MergedPulls` (`pr.go` 205-234), applied to the
fetched full pull request object. -/
def mergedPullsDetailStep (branches : List GoString) (since untilT : Nat)
    (fullPR : PullRequest) : Step PullRequest :=
  -- Filter 6: branch allow-list (entries lowercased, ref verbatim)
  if branches ≠ [] ∧ fullPR.baseRef ∉ branches.map toLower then .skip
  -- Filter 7: must be merged with a merge commit
  else if ¬ fullPR.merged ∨ fullPR.mergeCommitSHA = [] then .skip
  -- Filter 8: mergedAt must exist and lie in [since, until]
  else if fullPR.mergedAt = 0 then .skip
  else if untilT < fullPR.mergedAt then .skip
  else if fullPR.mergedAt < since then .skip
  else .emit fullPR

/-- The loop body of `MergedPulls` (`pr.go` 140-235) for one listed pull
request, with the cache-or-network detail fetch (`ghcache.PullRequestsGet`)
abstracted as `get : number → asOfTime → Except error PullRequest`
(`.error` models a non-nil `err`, on which the source logs and skips). -/
def mergedPullsStep (users branches : List GoString) (since untilT : Nat)
    (get : Nat → Nat → Except GoErr PullRequest) (pr : PullRequest) :
    Step PullRequest :=
  -- Filter 1: early exit on updated-descending listings
  if pr.updatedAt < since then .stop
  -- Filter 2: closedAt must exist and lie in [since, until]
  else if pr.closedAt = 0 then .skip
  else if untilT < pr.closedAt then .skip
  else if pr.closedAt < since then .skip
  -- Filter 3: user allow-list (both sides lowercased)
  else if users ≠ [] ∧ toLower pr.userLogin ∉ users.map toLower then .skip
  -- Filter 4: bot filter
  else if isBot pr.userLogin then .skip
  -- Filter 5: state must be "closed"
  else if pr.state ≠ strClosed then .skip
  else
    match get pr.number (prCacheTime pr) with
    | .error _ => .skip
    | .ok fullPR => mergedPullsDetailStep branches since untilT fullPR

/-- `MergedPulls` (`pr.go` 98-238) applied to an already-fetched listing:
the filter loop over `allFetchedPRs`. -/
def MergedPulls (users branches : List GoString) (since untilT : Nat)
    (get : Nat → Nat → Except GoErr PullRequest)
    (allFetchedPRs : List PullRequest) : List PullRequest :=
  runPipeline (mergedPullsStep users branches since untilT get) allFetchedPRs

/-- `issueDate` (`issue.go` 290-300): closed time, else updated time,
else created time. -/
def issueDate (i : Issue) : Nat :=
  if i.closedAt ≠ 0 then i.closedAt
  else if i.updatedAt ≠ 0 then i.updatedAt
  else i.createdAt

/-- Filter 4 of `issues` (`issue.go` 256-279): the user allow-list,
applied to the creator and closer of the fetched full issue. -/
def issuesUserFilterStep (users : List GoString) (full : Issue) : Step Issue :=
  if users = [] then .emit full
  else if toLower full.userLogin ∈ users.map toLower then .emit full
  else
    match full.closedByLogin with
    | some closer =>
      if closer ≠ [] ∧ toLower closer ∈ users.map toLower then .emit full
      else .skip
    | none => .skip

/-- The loop body of `issues` (`issue.go` 207-284) for one listed issue,
with the detail fetch (`ghcache.IssuesGet`) abstracted as `get`.  The
user filter is applied to the fetched full issue, as in the source. -/
def issuesStep (users : List GoString) (since untilT : Nat) (state : GoString)
    (get : Nat → Nat → Except GoErr Issue) (i : Issue) : Step Issue :=
  -- Kind rule: the issues endpoint also lists pull requests
  if i.isPullRequest then .skip
  -- Filter 1: early exit on updated-descending listings
  else if i.updatedAt < since then .stop
  -- Filter 2: for state="closed", closedAt must exist and lie in [since, until]
  else if state = strClosed ∧ i.closedAt = 0 then .skip
  else if state = strClosed ∧ untilT < i.closedAt then .skip
  else if state = strClosed ∧ i.closedAt < since then .skip
  -- Filter 3: state check
  else if state ≠ [] ∧ i.state ≠ state then .skip
  else
    match get i.number (issueDate i) with
    | .error _ => .skip
    | .ok full => issuesUserFilterStep users full

/-- `issues` (`issue.go` 173-288) applied to an already-fetched listing. -/
def issues (users : List GoString) (since untilT : Nat) (state : GoString)
    (get : Nat → Nat → Except GoErr Issue)
    (allFetchedIssues : List Issue) : List Issue :=
  runPipeline (issuesStep users since untilT state get) allFetchedIssues

/-! ## Page aggregation (`fetchAllPullRequestPages`, `fetchAllIssuePages`) -/

/-- The offset-mode pagination loop of `fetchAllPullRequestPages`
(`pr.go` 58-92).  The remote listing is abstracted as
`server : page number → (items of that page, NextPage of the response)`;
`NextPage = 0` signals the last page.  `fuel` bounds the number of loop
iterations (the Go loop is unbounded); running out of fuel returns the
items accumulated so far. -/
def fetchAllPullRequestPagesAux (server : Nat → List PullRequest × Nat) :
    Nat → Nat → List PullRequest → List PullRequest
  | 0, _, acc => acc
  | fuel + 1, page, acc =>
    let r := server page
    if r.1 = [] then acc
    else if r.2 = 0 then acc ++ r.1
    else fetchAllPullRequestPagesAux server fuel r.2 (acc ++ r.1)

/-- `fetchAllPullRequestPages` (`pr.go` 41-95): normalizes an unset page
to page 1, then runs the offset-mode loop. -/
def fetchAllPullRequestPages (server : Nat → List PullRequest × Nat)
    (fuel : Nat) (initialPage : Nat) : List PullRequest :=
  fetchAllPullRequestPagesAux server fuel (if initialPage = 0 then 1 else initialPage) []

/-- The cursor-mode pagination loop of `fetchAllIssuePages`
(`issue.go` 96-166).  The remote listing is abstracted as
`server : after-cursor → (items, After cursor of the response)`; the first
call passes the empty cursor (the source then sends `First` instead of
`After`, but the cursor seen by the server is determined by the same
value).  The loop appends a page's items only when the page is nonempty,
and stops only when the response's `After` cursor is empty — a page with
zero items and a nonempty cursor does not stop it. -/
def fetchAllIssuePagesAux (server : GoString → List Issue × GoString) :
    Nat → GoString → List Issue → List Issue
  | 0, _, acc => acc
  | fuel + 1, cursor, acc =>
    let r := server cursor
    let acc2 := if r.1 = [] then acc else acc ++ r.1
    if r.2 = [] then acc2
    else fetchAllIssuePagesAux server fuel r.2 acc2

/-- `fetchAllIssuePages` (`issue.go` 66-170): the cursor loop started
from the empty (initial) cursor. -/
def fetchAllIssuePages (server : GoString → List Issue × GoString)
    (fuel : Nat) : List Issue :=
  fetchAllIssuePagesAux server fuel [] []

/-! ## The change summarizer (`PullSummary`, `pr.go` 241-326) -/

/-- "\<!--" opener of `commentRe` (codes of `<`, `!`, `-`, `-`). -/
def strCommentOpen : GoString := [60, 33, 45, 45]

/-- Scan for the first `>` (code 62) that closes a `\<!--` match of
`commentRe = \<!--.*?>`; Go's `.` does not match a newline (code 10), so
a newline before any `>` means the non-greedy match fails.  Returns the
remainder after the `>`. -/
def findGt : GoString → Option GoString
  | [] => none
  | c :: rest => if c = 62 then some rest else if c = 10 then none else findGt rest

/-- The recursion of `commentRe.ReplaceAllString(body, "")`
(`pr.go` 270), deleting every leftmost non-overlapping match of
`\<!--.*?>`.  Each step consumes at least one character, so the
recursion is bounded by the string length; the explicit `fuel` argument
(instantiated with the length by `stripComments`) makes the function
structurally recursive and hence computable by the kernel. -/
def stripCommentsFuel : Nat → GoString → GoString
  | 0, s => s
  | _, [] => []
  | fuel + 1, c :: rest =>
    if startsWith strCommentOpen (c :: rest) then
      match findGt (rest.drop 3) with
      | some rest2 => stripCommentsFuel fuel rest2
      | none => c :: stripCommentsFuel fuel rest
    else c :: stripCommentsFuel fuel rest

/-- `commentRe.ReplaceAllString(body, "")` (`pr.go` 270). -/
def stripComments (s : GoString) : GoString := stripCommentsFuel s.length s

/-- "..." appended by the description truncation. -/
def strEllipsis : GoString := [46, 46, 46]

/-- The description truncation of `PullSummary` (`pr.go` 272-274):
bodies longer than 240 are cut to 240 plus "...". -/
def truncateBody (s : GoString) : GoString :=
  if 240 < s.length then s.take 240 ++ strEllipsis else s

/-- One iteration of the per-file accumulation loop of `PullSummary`
(`pr.go` 295-306) on the running (added, deleted, paths): a file whose
name matches `truncRe` and has more than 10 additions contributes
exactly 10 added lines; deletions are always counted in full; every
path is collected. -/
def summarizeStep (acc : Nat × Nat × List GoString) (f : CommitFile) :
    Nat × Nat × List GoString :=
  let added :=
    if truncMatch f.filename ∧ 10 < f.additions then acc.1 + 10
    else acc.1 + f.additions
  (added, acc.2.1 + f.deletions, acc.2.2 ++ [f.filename])

/-- The per-file accumulation loop of `PullSummary` (`pr.go` 291-306). -/
def summarizeFiles (files : List CommitFile) : Nat × Nat × List GoString :=
  files.foldl summarizeStep (0, 0, [])

/-- Modelled from the spec: helper routines called by the summarizers
whose definitions are not under `src/` — `ParseURL` (project extracted
from the HTML URL), `prType` (the "size-ordered classification ('type')
derived from the file set"), and Go's `time.Format` for the date column.
They do not decide any claim, so they are kept abstract as parameters;
the theorems below hold for every choice of them. -/
structure Helpers where
  formatDate : Nat → GoString
  prType : List CommitFile → GoString
  parseProject : GoString → GoString

/-- `PRSummary` (`pr.go` 241-254). -/
structure PRSummary where
  url : GoString
  date : GoString
  user : GoString
  project : GoString
  prtype : GoString
  title : GoString
  delta : Nat
  added : Nat
  deleted : Nat
  filesTotal : Nat
  files : GoString
  description : GoString
deriving DecidableEq

/-- "\n" separator of `strings.Join(paths, "\n")`. -/
def strNewline : GoString := [10]

/-- The summary row built by `PullSummary` for one pull request that
passed the seen/window checks, at effective timestamp `t`
(`pr.go` 268-322). -/
def mkPRSummary (H : Helpers) (pr : PullRequest) (files : List CommitFile)
    (t : Nat) : PRSummary :=
  let s := summarizeFiles files
  { url := pr.htmlURL
    date := H.formatDate t
    user := pr.userLogin
    project := H.parseProject pr.htmlURL
    prtype := H.prType files
    title := pr.title
    delta := s.1 + s.2.1
    added := s.1
    deleted := s.2.1
    filesTotal := pr.changedFiles
    files := List.intercalate strNewline s.2.2
    description := truncateBody (stripComments pr.body) }

/-- The effective timestamp used by `PullSummary`'s window check
(`pr.go` 275-279): mergedAt, falling back to closedAt when zero. -/
def prSummaryTime (pr : PullRequest) : Nat :=
  if pr.mergedAt = 0 then pr.closedAt else pr.mergedAt

/-- The loop of `PullSummary` (`pr.go` 261-323) with an explicit `seen`
set of already-encountered URLs.  A URL is marked seen before the window
check, as in the source; the input list is the iteration order of the Go
map argument. -/
def pullSummaryAux (H : Helpers) (since untilT : Nat) :
    List (PullRequest × List CommitFile) → List GoString → List PRSummary
  | [], _ => []
  | (pr, files) :: rest, seen =>
    if pr.htmlURL ∈ seen then pullSummaryAux H since untilT rest seen
    else
      let seen2 := seen ++ [pr.htmlURL]
      let t := prSummaryTime pr
      if untilT < t then pullSummaryAux H since untilT rest seen2
      else if t < since then pullSummaryAux H since untilT rest seen2
      else mkPRSummary H pr files t :: pullSummaryAux H since untilT rest seen2

/-- `PullSummary` (`pr.go` 257-326): summarize a batch of pull requests
with their file diffs (always succeeds; the Go version returns a nil
error unconditionally). -/
def PullSummary (H : Helpers) (prs : List (PullRequest × List CommitFile))
    (since untilT : Nat) : List PRSummary :=
  pullSummaryAux H since untilT prs []

/-! ## The cache-or-fetch helper (`ghcache.PullRequestsGet`) -/

/-- `ghcache.PullRequestsGet` (ghcache, lines 388-416) as a function of
the outcomes it observes: `cached` is the result of `p.Get(key, t)`,
`fetch` the outcome of the retried `PullRequests.Get` network call, and
`setResult` the error returned by `p.Set(key, blob)` (`none` = nil).
The helper returns the pair `(pr, err)` of the Go function: on a cache
miss and successful fetch it returns the fetched pull request together
with whatever the cache write returned — `return pr, p.Set(...)`. -/
def PullRequestsGet (cached : Option PullRequest)
    (fetch : Except GoErr PullRequest) (setResult : Option GoErr) :
    Option PullRequest × Option GoErr :=
  match cached with
  | some v => (some v, none)
  | none =>
    match fetch with
    | .error e => (none, some e)
    | .ok pr => (some pr, setResult)

/-- The caller-side policy of `MergedPulls` (`pr.go` 197-203): the item
is processed further exactly when `err == nil` (`if err != nil
{ ...; continue }`). -/
def callerKeepsItem (r : Option PullRequest × Option GoErr) : Bool :=
  r.2.isNone

/-! ## The issue summaries and the opener chart (`leaderboard`) -/

/-- `IssueSummary` (`issue.go` 31-39). -/
structure IssueSummary where
  url : GoString
  date : GoString
  author : GoString
  closer : GoString
  project : GoString
  itype : GoString
  title : GoString
deriving DecidableEq

/-- The summary row built by `ClosedIssues` (`issue.go` 49-58) from a
closed issue returned by the pipeline (`GetClosedBy().GetLogin()` is the
empty string when `ClosedBy` is nil). -/
def mkIssueSummary (H : Helpers) (project : GoString) (i : Issue) : IssueSummary :=
  { url := i.htmlURL
    date := H.formatDate i.closedAt
    author := i.userLogin
    closer := i.closedByLogin.getD []
    project := project
    itype := []
    title := i.title }

/-- `ClosedIssues` (`issue.go` 42-61) applied to an already-fetched
listing: run the closed-issues pipeline, then build summary rows. -/
def ClosedIssues (H : Helpers) (users : List GoString) (since untilT : Nat)
    (get : Nat → Nat → Except GoErr Issue) (project : GoString)
    (allFetchedIssues : List Issue) : List IssueSummary :=
  (issues users since untilT strClosed get allFetchedIssues).map
    (mkIssueSummary H project)

/-- The authors tallied by `issueOpenerChart` (leaderboard, lines 47-70):
an author is counted once per summary row that passes the allow-list
check (non-empty list, both sides lowercased) and whose login does not
end in "bot".  The chart's `uMap` keys are exactly the distinct members
of this list. -/
def issueOpenerAuthors (is : List IssueSummary) (users : List GoString) :
    List GoString :=
  is.filterMap fun i =>
    if users ≠ [] ∧ toLower i.author ∉ users.map toLower then none
    else if endsWith strBot i.author then none
    else some i.author

/-! ## Refinement comparison for the asOfTime priority order -/

/-- The asOfTime priority order as the spec words it ("closed time, else
merged time, else updated time, else created time"), written for
comparison with `prCacheTime`, the order the source actually computes. -/
def specAsOfTime (pr : PullRequest) : Nat :=
  if pr.closedAt ≠ 0 then pr.closedAt
  else if pr.mergedAt ≠ 0 then pr.mergedAt
  else if pr.updatedAt ≠ 0 then pr.updatedAt
  else pr.createdAt

/-! ## Concrete data used by the closed theorems below -/

/-- Helpers instance with trivially empty rendering, used to instantiate
the universally quantified theorems at concrete inputs. -/
def trivialHelpers : Helpers :=
  { formatDate := fun _ => [], prType := fun _ => [], parseProject := fun _ => [] }

/-- "alice" -/
def strAlice : GoString := [97, 108, 105, 99, 101]

/-- "deploy-bot" -/
def strDeployBot : GoString := [100, 101, 112, 108, 111, 121, 45, 98, 111, 116]

/-- "Main" -/
def strMainUpper : GoString := [77, 97, 105, 110]

/-- "main" -/
def strMainLower : GoString := [109, 97, 105, 110]

/-- "CHANGELOG.md" -/
def strChangelogMd : GoString := [67, 72, 65, 78, 71, 69, 76, 79, 71, 46, 109, 100]

/-- "main.go" -/
def strMainGo : GoString := [109, 97, 105, 110, 46, 103, 111]

/-- A closed, merged pull request by "alice", inside the window [5, 20]. -/
def basePR : PullRequest :=
  { number := 1, title := [], body := [], state := strClosed, createdAt := 1
    updatedAt := 6, closedAt := 6, mergedAt := 5, merged := true
    mergeCommitSHA := [97], baseRef := [], userLogin := strAlice
    htmlURL := [117], changedFiles := 0 }

/-- A listed pull request whose `updatedAt` precedes `since = 5`. -/
def stalePR : PullRequest := { basePR with number := 2, updatedAt := 1 }

/-- The detail object fetched for `basePR` (merged at 6 ∈ [5, 20]). -/
def fullBase : PullRequest := { basePR with mergedAt := 6 }

/-- Detail fetch returning `fullBase` for every number. -/
def getOkBase : Nat → Nat → Except GoErr PullRequest :=
  fun _ _ => .ok fullBase

/-- A detail object merged at 30, after the window [5, 20]. -/
def fullLate : PullRequest := { basePR with mergedAt := 30 }

/-- Detail fetch returning `fullLate` for every number. -/
def getOkLate : Nat → Nat → Except GoErr PullRequest :=
  fun _ _ => .ok fullLate

/-- The pull request of the C4 counterexample: merged at 3, closed at 5. -/
def prC4 : PullRequest := { basePR with mergedAt := 3, closedAt := 5 }

/-- The error returned by the failing cache write of the C3 scenario. -/
def errC3 : GoErr := [101]

/-- An offset-mode server whose every page is empty but signals page 5
as next. -/
def prServerEmptyFirst : Nat → List PullRequest × Nat := fun _ => ([], 5)

/-- An offset-mode server with two nonempty pages, 1 then 2. -/
def prServerTwoPages : Nat → List PullRequest × Nat := fun p =>
  if p = 1 then ([basePR], 2) else if p = 2 then ([stalePR], 0) else ([], 0)

/-- A closed issue by "alice", inside the window [1, 10]. -/
def issueC5 : Issue :=
  { number := 1, title := [], state := strClosed, isPullRequest := false
    updatedAt := 5, closedAt := 5, createdAt := 1, userLogin := strAlice
    closedByLogin := none, htmlURL := [] }

/-- "c", the opaque cursor of the C5 scenario. -/
def strCursor : GoString := [99]

/-- A cursor-mode server whose first page is empty but carries a next
cursor, and whose second page has one issue and an empty next cursor. -/
def issueServerEmptyFirst : GoString → List Issue × GoString := fun cur =>
  if cur = [] then ([], strCursor) else ([issueC5], [])

/-- File matching `truncRe` ("CHANGELOG.md") with 37 additions. -/
def fileChangelog : CommitFile := { filename := strChangelogMd, additions := 37, deletions := 4 }

/-- File not matching `truncRe` ("main.go") with 37 additions. -/
def fileMain : CommitFile := { filename := strMainGo, additions := 37, deletions := 2 }

/-- The pull request of the C7 counterexample: merged after the window,
so its first occurrence is filtered out yet marks the URL as seen. -/
def prC7 : PullRequest := { basePR with mergedAt := 30, closedAt := 0 }

/-- A closed issue authored by "deploy-bot". -/
def botIssue : Issue :=
  { issueC5 with userLogin := strDeployBot, closedByLogin := some strAlice }

/-- Detail fetch returning the bot-authored issue for every number. -/
def getBotIssue : Nat → Nat → Except GoErr Issue := fun _ _ => .ok botIssue

/-- The fetched detail of the C10 counterexample: base branch "main". -/
def fullC10 : PullRequest := { basePR with baseRef := strMainLower, mergedAt := 6 }

/-- Detail fetch returning `fullC10` for every number. -/
def getC10 : Nat → Nat → Except GoErr PullRequest := fun _ _ => .ok fullC10

/-- Detail fetch agreeing with `getOkBase` except at number 99. -/
def getOkBasePrime : Nat → Nat → Except GoErr PullRequest :=
  fun n _ => if n = 99 then .error [] else .ok fullBase

/-- A fetched detail whose base branch ref is "Main" (has an uppercase
letter). -/
def fullUpperRef : PullRequest := { basePR with baseRef := strMainUpper, mergedAt := 6 }

/-- Detail fetch returning `fullUpperRef` for every number. -/
def getUpperRef : Nat → Nat → Except GoErr PullRequest := fun _ _ => .ok fullUpperRef

/-- A listed pull request with a zero `closedAt`. -/
def prClosedZero : PullRequest := { basePR with closedAt := 0 }

/-- A listed closed-state issue with a zero `closedAt`. -/
def issueClosedZero : Issue := { issueC5 with closedAt := 0 }

/-! ## Shared lemmas about the pipeline loop -/

theorem runPipeline_nil_of_no_emit {α β : Type} (step : α → Step β) (l : List α)
    (h : ∀ x ∈ l, step x = .stop ∨ step x = .skip) : runPipeline step l = [] := by
  induction l with
  | nil => rfl
  | cons x xs ih =>
    rcases h x (by simp) with hs | hs <;> simp [runPipeline, hs]
    exact ih fun y hy => h y (by simp [hy])

theorem runPipeline_eq_take {α β : Type} (step : α → Step β) (l : List α) (k : Nat)
    (h : ∀ x ∈ l.drop k, step x = .stop ∨ step x = .skip) :
    runPipeline step l = runPipeline step (l.take k) := by
  induction l generalizing k with
  | nil => simp
  | cons x xs ih =>
    cases k with
    | zero =>
      simp only [List.take_zero]
      exact runPipeline_nil_of_no_emit step (x :: xs) (by simpa using h)
    | succ k =>
      simp only [List.take_succ_cons]
      have h2 : ∀ y ∈ xs.drop k, step y = .stop ∨ step y = .skip := by
        intro y hy
        exact h y (by simpa using hy)
      cases hs : step x <;> simp [runPipeline, hs, ih k h2]

theorem lt_since_of_drop {α : Type} (f : α → Nat) (since : Nat) (l : List α)
    (k : Nat) (hk : k < l.length)
    (hp : l.Pairwise fun a b => f b < f a) (h : f (l.get ⟨k, hk⟩) < since) :
    ∀ x ∈ l.drop k, f x < since := by
  induction l generalizing k with
  | nil => simp at hk
  | cons y ys ih =>
    rcases List.pairwise_cons.mp hp with ⟨hhead, htail⟩
    cases k with
    | zero =>
      intro x hx
      simp only [List.get] at h
      rcases (by simpa using hx : x = y ∨ x ∈ ys) with rfl | hmem
      · exact h
      · exact lt_trans (hhead x hmem) h
    | succ k =>
      intro x hx
      simp only [List.get] at h
      exact ih k (by simpa using hk) htail h x (by simpa using hx)

/-- C1: on a listing that is strictly descending by last-updated
timestamp, as soon as the pipeline meets an item updated strictly before
`since`, the run's result is already complete: the result over the whole
listing equals the result over the prefix before that item, for both the
pull-request instance (`MergedPulls`, which executes `break` there) and
the issue instance (`issues`); neither that item nor any later one is
included. -/
theorem claim_C1_early_exit :
    (∀ (users branches : List GoString) (since untilT : Nat)
        (get : Nat → Nat → Except GoErr PullRequest)
        (prs : List PullRequest) (k : Nat) (hk : k < prs.length),
        (prs.Pairwise fun a b => b.updatedAt < a.updatedAt) →
        (prs.get ⟨k, hk⟩).updatedAt < since →
        MergedPulls users branches since untilT get prs
          = MergedPulls users branches since untilT get (prs.take k))
    ∧ (∀ (users : List GoString) (since untilT : Nat) (state : GoString)
        (get : Nat → Nat → Except GoErr Issue)
        (is : List Issue) (k : Nat) (hk : k < is.length),
        (is.Pairwise fun a b => b.updatedAt < a.updatedAt) →
        (is.get ⟨k, hk⟩).updatedAt < since →
        issues users since untilT state get is
          = issues users since untilT state get (is.take k)) := by
  constructor
  · intro users branches since untilT get prs k hk hp h
    apply runPipeline_eq_take
    intro x hx
    have hlt : x.updatedAt < since :=
      lt_since_of_drop (fun pr => pr.updatedAt) since prs k hk hp h x hx
    left
    simp [mergedPullsStep, hlt]
  · intro users since untilT state get is k hk hp h
    apply runPipeline_eq_take
    intro x hx
    have hlt : x.updatedAt < since :=
      lt_since_of_drop (fun i => i.updatedAt) since is k hk hp h x hx
    by_cases hpr : x.isPullRequest
    · right; simp [issuesStep, hpr]
    · left; simp [issuesStep, hpr, hlt]

/-- Witness for C1: a two-element descending listing whose second item
was updated before `since = 5`; the pipeline result equals the result on
the first item alone (which is included). -/
theorem claim_C1_early_exit_witness :
    MergedPulls [] [] 5 20 getOkBase [basePR, stalePR]
      = MergedPulls [] [] 5 20 getOkBase ([basePR, stalePR].take 1) :=
  claim_C1_early_exit.1 [] [] 5 20 getOkBase [basePR, stalePR] 1
    (by decide) (by decide) (by decide)

/-- C2: the terminal-window rule, inclusive at both bounds.  (1) A listed
pull request whose `closedAt` is zero or outside `[since, until]` is
never emitted.  (2) A pull request whose fetched detail has a `mergedAt`
that is zero or outside the window is never emitted, whatever the listed
object said.  (3) When both terminal timestamps lie in the inclusive
window and every other filter passes, the pull request is emitted.
(4) A closed-state issue with a zero `closedAt` is never emitted by the
closed-issues pipeline. -/
theorem claim_C2_terminal_window :
    (∀ (users branches : List GoString) (since untilT : Nat)
        (get : Nat → Nat → Except GoErr PullRequest) (pr : PullRequest),
        (pr.closedAt = 0 ∨ pr.closedAt < since ∨ untilT < pr.closedAt) →
        ∀ f, mergedPullsStep users branches since untilT get pr ≠ .emit f)
    ∧ (∀ (users branches : List GoString) (since untilT : Nat)
        (get : Nat → Nat → Except GoErr PullRequest) (pr full : PullRequest),
        get pr.number (prCacheTime pr) = .ok full →
        (full.mergedAt = 0 ∨ full.mergedAt < since ∨ untilT < full.mergedAt) →
        ∀ f, mergedPullsStep users branches since untilT get pr ≠ .emit f)
    ∧ (∀ (users branches : List GoString) (since untilT : Nat)
        (get : Nat → Nat → Except GoErr PullRequest) (pr full : PullRequest),
        since ≤ pr.updatedAt →
        pr.closedAt ≠ 0 → since ≤ pr.closedAt → pr.closedAt ≤ untilT →
        (users = [] ∨ toLower pr.userLogin ∈ users.map toLower) →
        isBot pr.userLogin = false →
        pr.state = strClosed →
        get pr.number (prCacheTime pr) = .ok full →
        (branches = [] ∨ full.baseRef ∈ branches.map toLower) →
        full.merged = true → full.mergeCommitSHA ≠ [] →
        full.mergedAt ≠ 0 → since ≤ full.mergedAt → full.mergedAt ≤ untilT →
        mergedPullsStep users branches since untilT get pr = .emit full)
    ∧ (∀ (users : List GoString) (since untilT : Nat)
        (get : Nat → Nat → Except GoErr Issue) (i : Issue),
        i.closedAt = 0 →
        ∀ f, issuesStep users since untilT strClosed get i ≠ .emit f) := by
  refine ⟨?_, ?_, ?_, ?_⟩
  · intro users branches since untilT get pr hout f hcon
    simp only [mergedPullsStep] at hcon
    repeat' split at hcon
    all_goals try exact Step.noConfusion hcon
    all_goals rcases hout with h | h | h <;> omega
  · intro users branches since untilT get pr full hget hout f hcon
    simp only [mergedPullsStep, hget] at hcon
    repeat' split at hcon
    all_goals try exact Step.noConfusion hcon
    all_goals simp only [mergedPullsDetailStep] at hcon
    all_goals repeat' split at hcon
    all_goals try exact Step.noConfusion hcon
    all_goals rcases hout with h | h | h <;> omega
  · intro users branches since untilT get pr full hup hc0 hcs hcu huser hbot
      hstate hget hbr hm hsha hm0 hms hmu
    simp only [mergedPullsStep, hget]
    rw [if_neg (by omega)]
    rw [if_neg hc0]
    rw [if_neg (by omega)]
    rw [if_neg (by omega)]
    rw [if_neg (by tauto)]
    rw [if_neg (by simp [hbot])]
    rw [if_neg (by simp [hstate])]
    simp only [mergedPullsDetailStep]
    rw [if_neg (by tauto)]
    rw [if_neg (by simp [hm, hsha])]
    rw [if_neg hm0]
    rw [if_neg (by omega)]
    rw [if_neg (by omega)]
  · intro users since untilT get i h0 f hcon
    simp only [issuesStep] at hcon
    repeat' split at hcon
    all_goals try exact Step.noConfusion hcon
    all_goals simp_all

/-- Witness for C2 at concrete inputs: a zero-`closedAt` pull request is
not emitted, a detail merged at 30 ∉ [5, 20] is not emitted, `basePR`
with detail merged at 6 ∈ [5, 20] is emitted, and a zero-`closedAt`
closed issue is not emitted. -/
theorem claim_C2_terminal_window_witness :
    mergedPullsStep [] [] 5 20 getOkBase prClosedZero ≠ .emit fullBase
    ∧ mergedPullsStep [] [] 5 20 getOkLate basePR ≠ .emit fullLate
    ∧ mergedPullsStep [] [] 5 20 getOkBase basePR = .emit fullBase
    ∧ issuesStep [] 1 10 strClosed getBotIssue issueClosedZero ≠ .emit botIssue :=
  ⟨claim_C2_terminal_window.1 [] [] 5 20 getOkBase prClosedZero (by decide) fullBase,
   claim_C2_terminal_window.2.1 [] [] 5 20 getOkLate basePR fullLate
     rfl (by decide) fullLate,
   claim_C2_terminal_window.2.2.1 [] [] 5 20 getOkBase basePR fullBase
     (by decide) (by decide) (by decide) (by decide) (by decide) (by decide)
     (by decide) rfl (by decide) (by decide) (by decide) (by decide)
     (by decide) (by decide),
   claim_C2_terminal_window.2.2.2 [] 1 10 getBotIssue issueClosedZero
     (by decide) botIssue⟩

/-- C3 counterexample: on a cache miss, a successful fetch of `basePR`
followed by a failing cache write makes `PullRequestsGet` return the
fetched pull request together with the write error — and the caller in
`MergedPulls`, which skips on any non-nil error, drops the item even
though the data is in hand. -/
theorem claim_C3_counterexample :
    PullRequestsGet none (.ok basePR) (some errC3) = (some basePR, some errC3)
    ∧ callerKeepsItem (PullRequestsGet none (.ok basePR) (some errC3)) = false := by
  decide

/-- C3 as amended: the helper does keep the freshly fetched entity in its
result and propagates the cache-write error alongside it, but its caller
in `MergedPulls` processes the item exactly when the returned error is
nil — so a cache-write failure drops the item for the current run. -/
theorem claim_C3_cache_write_failure :
    (∀ (fetched : PullRequest) (setResult : Option GoErr),
        PullRequestsGet none (.ok fetched) setResult = (some fetched, setResult))
    ∧ (∀ r : Option PullRequest × Option GoErr,
        callerKeepsItem r = true ↔ r.2 = none) := by
  constructor
  · intro fetched setResult; rfl
  · intro r; simp [callerKeepsItem, Option.isNone_iff_eq_none]

/-- C4 counterexample: a listed pull request with `mergedAt = 3` and
`closedAt = 5` gets `asOfTime = 3` (merged time first) from the code,
while the spec's stated priority (closed time first) would give 5. -/
theorem claim_C4_counterexample :
    prCacheTime prC4 = 3 ∧ specAsOfTime prC4 = 5
    ∧ prCacheTime prC4 ≠ specAsOfTime prC4 := by
  decide

/-- C4 as amended: the asOfTime passed to the cache get is the one the
code derives — for pull requests merged time, else closed time, else
updated time (created time is never consulted); for issues closed time,
else updated time, else created time — and each pipeline step observes
its detail fetch only at that asOfTime and the entity's number. -/
theorem claim_C4_asOfTime_priority :
    (∀ (users branches : List GoString) (since untilT : Nat)
        (get1 get2 : Nat → Nat → Except GoErr PullRequest) (pr : PullRequest),
        get1 pr.number (prCacheTime pr) = get2 pr.number (prCacheTime pr) →
        mergedPullsStep users branches since untilT get1 pr
          = mergedPullsStep users branches since untilT get2 pr)
    ∧ (∀ (users : List GoString) (since untilT : Nat) (state : GoString)
        (get1 get2 : Nat → Nat → Except GoErr Issue) (i : Issue),
        get1 i.number (issueDate i) = get2 i.number (issueDate i) →
        issuesStep users since untilT state get1 i
          = issuesStep users since untilT state get2 i)
    ∧ (∀ pr : PullRequest, pr.mergedAt ≠ 0 → prCacheTime pr = pr.mergedAt)
    ∧ (∀ pr : PullRequest, pr.mergedAt = 0 → pr.closedAt ≠ 0 →
        prCacheTime pr = pr.closedAt)
    ∧ (∀ pr : PullRequest, pr.mergedAt = 0 → pr.closedAt = 0 →
        prCacheTime pr = pr.updatedAt)
    ∧ (∀ i : Issue, i.closedAt ≠ 0 → issueDate i = i.closedAt)
    ∧ (∀ i : Issue, i.closedAt = 0 → i.updatedAt ≠ 0 → issueDate i = i.updatedAt)
    ∧ (∀ i : Issue, i.closedAt = 0 → i.updatedAt = 0 → issueDate i = i.createdAt) := by
  refine ⟨?_, ?_, ?_, ?_, ?_, ?_, ?_, ?_⟩
  · intro users branches since untilT get1 get2 pr h
    simp only [mergedPullsStep, h]
  · intro users since untilT state get1 get2 i h
    simp only [issuesStep, h]
  · intro pr h; simp [prCacheTime, h]
  · intro pr h h2; simp [prCacheTime, h, h2]
  · intro pr h h2; simp [prCacheTime, h, h2]
  · intro i h; simp [issueDate, h]
  · intro i h h2; simp [issueDate, h, h2]
  · intro i h h2; simp [issueDate, h, h2]

/-- Witness for C4's amended statement at concrete inputs. -/
theorem claim_C4_asOfTime_priority_witness :
    prCacheTime prC4 = prC4.mergedAt
    ∧ issueDate issueC5 = issueC5.closedAt
    ∧ mergedPullsStep [] [] 5 20 getOkBase basePR
        = mergedPullsStep [] [] 5 20 getOkBasePrime basePR :=
  ⟨claim_C4_asOfTime_priority.2.2.1 prC4 (by decide),
   claim_C4_asOfTime_priority.2.2.2.2.2.1 issueC5 (by decide),
   claim_C4_asOfTime_priority.1 [] [] 5 20 getOkBase getOkBasePrime basePR rfl⟩

/-- C5: page aggregation terminates by mode-specific rules.  Offset mode
(`fetchAllPullRequestPages`): with the page number unset it starts at
page 1; a page with zero items ends the aggregation even when a next
page is signalled; a nonempty page followed by `NextPage = 0` ends it
with the page appended; otherwise the loop continues at the signalled
page with the items appended in order, so a two-page listing yields the
two pages concatenated.  Cursor mode (`fetchAllIssuePages`): the loop
ends exactly when the response's next cursor is empty — a page with zero
items but a nonempty cursor continues, as the two concrete runs show
(the same empty-first-page server ends with `[]` in offset mode but
reaches the second page's item in cursor mode). -/
theorem claim_C5_pagination :
    (∀ (server : Nat → List PullRequest × Nat) (fuel : Nat)
        (items : List PullRequest), server 1 = (items, 0) → items ≠ [] →
        fetchAllPullRequestPages server (fuel + 1) 0 = items)
    ∧ (∀ (server : Nat → List PullRequest × Nat) (fuel page : Nat)
        (acc : List PullRequest), (server page).1 = [] →
        fetchAllPullRequestPagesAux server (fuel + 1) page acc = acc)
    ∧ (∀ (server : Nat → List PullRequest × Nat) (fuel page : Nat)
        (acc : List PullRequest), (server page).1 ≠ [] → (server page).2 = 0 →
        fetchAllPullRequestPagesAux server (fuel + 1) page acc = acc ++ (server page).1)
    ∧ (∀ (server : Nat → List PullRequest × Nat) (fuel page : Nat)
        (acc : List PullRequest), (server page).1 ≠ [] → (server page).2 ≠ 0 →
        fetchAllPullRequestPagesAux server (fuel + 1) page acc
          = fetchAllPullRequestPagesAux server fuel (server page).2 (acc ++ (server page).1))
    ∧ (∀ (server : Nat → List PullRequest × Nat) (fuel : Nat)
        (items1 items2 : List PullRequest),
        server 1 = (items1, 2) → server 2 = (items2, 0) →
        items1 ≠ [] → items2 ≠ [] →
        fetchAllPullRequestPages server (fuel + 2) 0 = items1 ++ items2)
    ∧ (∀ (server : GoString → List Issue × GoString) (fuel : Nat)
        (cursor : GoString) (acc : List Issue), (server cursor).2 = [] →
        fetchAllIssuePagesAux server (fuel + 1) cursor acc
          = (if (server cursor).1 = [] then acc else acc ++ (server cursor).1))
    ∧ (∀ (server : GoString → List Issue × GoString) (fuel : Nat)
        (cursor : GoString) (acc : List Issue), (server cursor).2 ≠ [] →
        fetchAllIssuePagesAux server (fuel + 1) cursor acc
          = fetchAllIssuePagesAux server fuel (server cursor).2
              (if (server cursor).1 = [] then acc else acc ++ (server cursor).1))
    ∧ fetchAllIssuePages issueServerEmptyFirst 2 = [issueC5]
    ∧ fetchAllPullRequestPages (fun _ => ([], 5)) 2 0 = [] := by
  refine ⟨?_, ?_, ?_, ?_, ?_, ?_, ?_, ?_, ?_⟩
  · intro server fuel items h hne
    simp [fetchAllPullRequestPages, fetchAllPullRequestPagesAux, h, hne]
  · intro server fuel page acc h
    simp [fetchAllPullRequestPagesAux, h]
  · intro server fuel page acc h h2
    simp [fetchAllPullRequestPagesAux, h, h2]
  · intro server fuel page acc h h2
    simp [fetchAllPullRequestPagesAux, h, h2]
  · intro server fuel items1 items2 h1 h2 hne1 hne2
    simp [fetchAllPullRequestPages, fetchAllPullRequestPagesAux, h1, h2, hne1, hne2]
  · intro server fuel cursor acc h
    simp only [fetchAllIssuePagesAux, h]
    simp
  · intro server fuel cursor acc h
    simp only [fetchAllIssuePagesAux, h]
    simp [h]
  · rfl
  · rfl

/-- Witness for C5 at concrete servers: the two-page offset aggregation
returns the pages concatenated, and an empty page terminates the offset
aggregation mid-run. -/
theorem claim_C5_pagination_witness :
    fetchAllPullRequestPages prServerTwoPages 2 0 = [basePR] ++ [stalePR]
    ∧ fetchAllPullRequestPagesAux prServerEmptyFirst 1 3 [basePR] = [basePR] :=
  ⟨claim_C5_pagination.2.2.2.2.1 prServerTwoPages 0 [basePR] [stalePR]
      rfl rfl (by decide) (by decide),
   claim_C5_pagination.2.1 prServerEmptyFirst 0 3 [basePR] rfl⟩

theorem summarizeFiles_deleted_aux (files : List CommitFile)
    (a : Nat × Nat × List GoString) :
    (files.foldl summarizeStep a).2.1 = a.2.1 + (files.map CommitFile.deletions).sum := by
  induction files generalizing a with
  | nil => simp
  | cons f fs ih =>
    simp only [List.foldl_cons, List.map_cons, List.sum_cons, ih, summarizeStep]
    omega

/-- C6: the generated/changelog-like truncation of the change summarizer.
A file whose path matches `truncRe` with 37 actual added lines
contributes exactly 10 to the running added-lines count, a non-matching
file with 37 added lines contributes 37, and the deleted-lines count is
always the full sum of per-file deletions.  Concretely, "CHANGELOG.md"
matches the pattern and "main.go" does not. -/
theorem claim_C6_truncation :
    (∀ (files : List CommitFile) (f : CommitFile),
        truncMatch f.filename = true → f.additions = 37 →
        (summarizeFiles (files ++ [f])).1 = (summarizeFiles files).1 + 10)
    ∧ (∀ (files : List CommitFile) (f : CommitFile),
        truncMatch f.filename = false → f.additions = 37 →
        (summarizeFiles (files ++ [f])).1 = (summarizeFiles files).1 + 37)
    ∧ (∀ files : List CommitFile,
        (summarizeFiles files).2.1 = (files.map CommitFile.deletions).sum)
    ∧ truncMatch strChangelogMd = true ∧ truncMatch strMainGo = false := by
  refine ⟨?_, ?_, ?_, by decide, by decide⟩
  · intro files f h h2
    simp [summarizeFiles, List.foldl_append, summarizeStep, h, h2]
  · intro files f h h2
    simp [summarizeFiles, List.foldl_append, summarizeStep, h, h2]
  · intro files
    simpa using summarizeFiles_deleted_aux files (0, 0, [])

/-- Witness for C6: a matching file ("CHANGELOG.md") with 37 additions
adds 10, a non-matching file ("main.go") with 37 additions adds 37, and
deletions are summed in full. -/
theorem claim_C6_truncation_witness :
    (summarizeFiles ([fileMain] ++ [fileChangelog])).1
      = (summarizeFiles [fileMain]).1 + 10
    ∧ (summarizeFiles ([] ++ [fileMain])).1 = (summarizeFiles []).1 + 37
    ∧ (summarizeFiles [fileMain, fileChangelog]).2.1
        = ([fileMain, fileChangelog].map CommitFile.deletions).sum :=
  ⟨claim_C6_truncation.1 [fileMain] fileChangelog (by decide) (by decide),
   claim_C6_truncation.2.1 [] fileMain (by decide) (by decide),
   claim_C6_truncation.2.2.1 [fileMain, fileChangelog]⟩

theorem mkPRSummary_url (H : Helpers) (pr : PullRequest)
    (files : List CommitFile) (t : Nat) : (mkPRSummary H pr files t).url = pr.htmlURL := by
  simp [mkPRSummary]

theorem pullSummaryAux_filter_nil (H : Helpers) (since untilT : Nat)
    (l : List (PullRequest × List CommitFile)) (seen : List GoString)
    (url : GoString) (hmem : url ∈ seen) :
    (pullSummaryAux H since untilT l seen).filter (fun r => r.url == url) = [] := by
  induction l generalizing seen with
  | nil => rfl
  | cons e rest ih =>
    obtain ⟨pr, files⟩ := e
    by_cases hseen : pr.htmlURL ∈ seen
    · rw [pullSummaryAux, if_pos hseen]
      exact ih seen hmem
    · have hne : pr.htmlURL ≠ url := fun h => hseen (h ▸ hmem)
      have hmem2 : url ∈ seen ++ [pr.htmlURL] := List.mem_append_left _ hmem
      rw [pullSummaryAux, if_neg hseen]
      by_cases h1 : untilT < prSummaryTime pr
      · rw [if_pos h1]; exact ih _ hmem2
      · rw [if_neg h1]
        by_cases h2 : prSummaryTime pr < since
        · rw [if_pos h2]; exact ih _ hmem2
        · rw [if_neg h2, List.filter_cons]
          have hb : ((mkPRSummary H pr files (prSummaryTime pr)).url == url) = false := by
            simp [mkPRSummary_url, hne]
          simp only [hb, Bool.false_eq_true, if_false]
          exact ih _ hmem2

theorem pullSummaryAux_filter_le_one (H : Helpers) (since untilT : Nat)
    (l : List (PullRequest × List CommitFile)) (seen : List GoString)
    (url : GoString) :
    ((pullSummaryAux H since untilT l seen).filter (fun r => r.url == url)).length ≤ 1 := by
  induction l generalizing seen with
  | nil => simp [pullSummaryAux]
  | cons e rest ih =>
    obtain ⟨pr, files⟩ := e
    by_cases hseen : pr.htmlURL ∈ seen
    · rw [pullSummaryAux, if_pos hseen]; exact ih seen
    · rw [pullSummaryAux, if_neg hseen]
      by_cases h1 : untilT < prSummaryTime pr
      · rw [if_pos h1]; exact ih _
      · rw [if_neg h1]
        by_cases h2 : prSummaryTime pr < since
        · rw [if_pos h2]; exact ih _
        · rw [if_neg h2, List.filter_cons]
          by_cases hurl : pr.htmlURL = url
          · have hb : ((mkPRSummary H pr files (prSummaryTime pr)).url == url) = true := by
              simp [mkPRSummary_url, hurl]
            have h0 := pullSummaryAux_filter_nil H since untilT rest
              (seen ++ [pr.htmlURL]) url (by simp [hurl])
            simp [hb, h0]
          · have hb : ((mkPRSummary H pr files (prSummaryTime pr)).url == url) = false := by
              simp [mkPRSummary_url, hurl]
            simp only [hb, Bool.false_eq_true, if_false]
            exact ih _

theorem pullSummaryAux_drop_dup (H : Helpers) (since untilT : Nat)
    (l1 : List (PullRequest × List CommitFile)) (e : PullRequest × List CommitFile)
    (l2 : List (PullRequest × List CommitFile)) (seen : List GoString)
    (hmem : e.1.htmlURL ∈ seen ∨ e.1.htmlURL ∈ l1.map fun x => x.1.htmlURL) :
    pullSummaryAux H since untilT (l1 ++ e :: l2) seen
      = pullSummaryAux H since untilT (l1 ++ l2) seen := by
  induction l1 generalizing seen with
  | nil =>
    rcases hmem with hmem | hmem
    · obtain ⟨pr, files⟩ := e
      simp only [List.nil_append]
      rw [pullSummaryAux, if_pos hmem]
    · simp at hmem
  | cons x l1x ih =>
    obtain ⟨xpr, xfiles⟩ := x
    simp only [List.cons_append]
    by_cases hseen : xpr.htmlURL ∈ seen
    · rw [pullSummaryAux, if_pos hseen, pullSummaryAux, if_pos hseen]
      apply ih
      rcases hmem with h | h
      · exact Or.inl h
      · rcases (by simpa using h :
            e.1.htmlURL = xpr.htmlURL ∨ e.1.htmlURL ∈ l1x.map fun x => x.1.htmlURL) with
          h | h
        · exact Or.inl (h ▸ hseen)
        · exact Or.inr h
    · have hnext : e.1.htmlURL ∈ seen ++ [xpr.htmlURL]
          ∨ e.1.htmlURL ∈ l1x.map fun x => x.1.htmlURL := by
        rcases hmem with h | h
        · exact Or.inl (List.mem_append_left _ h)
        · rcases (by simpa using h :
              e.1.htmlURL = xpr.htmlURL ∨ e.1.htmlURL ∈ l1x.map fun x => x.1.htmlURL) with
            h | h
          · exact Or.inl (by simp [h])
          · exact Or.inr h
      rw [pullSummaryAux, if_neg hseen, pullSummaryAux, if_neg hseen]
      by_cases h1 : untilT < prSummaryTime xpr
      · rw [if_pos h1, if_pos h1]; exact ih _ hnext
      · rw [if_neg h1, if_neg h1]
        by_cases h2 : prSummaryTime xpr < since
        · rw [if_pos h2, if_pos h2]; exact ih _ hnext
        · rw [if_neg h2, if_neg h2]
          exact congrArg _ (ih _ hnext)

theorem pullSummaryAux_first_wins (H : Helpers) (since untilT : Nat)
    (l1 : List (PullRequest × List CommitFile)) (pr : PullRequest)
    (files : List CommitFile) (l2 : List (PullRequest × List CommitFile))
    (seen : List GoString)
    (hseen : pr.htmlURL ∉ seen)
    (hl1 : pr.htmlURL ∉ l1.map fun x => x.1.htmlURL)
    (h1 : ¬ untilT < prSummaryTime pr) (h2 : ¬ prSummaryTime pr < since) :
    (pullSummaryAux H since untilT (l1 ++ (pr, files) :: l2) seen).filter
        (fun r => r.url == pr.htmlURL)
      = [mkPRSummary H pr files (prSummaryTime pr)] := by
  induction l1 generalizing seen with
  | nil =>
    simp only [List.nil_append]
    rw [pullSummaryAux, if_neg hseen, if_neg h1, if_neg h2, List.filter_cons]
    have hb : ((mkPRSummary H pr files (prSummaryTime pr)).url == pr.htmlURL) = true := by
      simp [mkPRSummary_url]
    have h0 := pullSummaryAux_filter_nil H since untilT l2
      (seen ++ [pr.htmlURL]) pr.htmlURL (by simp)
    simp [hb, h0]
  | cons x l1x ih =>
    obtain ⟨xpr, xfiles⟩ := x
    have hxne : xpr.htmlURL ≠ pr.htmlURL := by
      intro h
      exact hl1 (by simp [h])
    have hl1x : pr.htmlURL ∉ l1x.map fun x => x.1.htmlURL := fun h => hl1 (by simp [h])
    simp only [List.cons_append]
    by_cases hx : xpr.htmlURL ∈ seen
    · rw [pullSummaryAux, if_pos hx]
      exact ih seen hseen hl1x
    · rw [pullSummaryAux, if_neg hx]
      have hseen2 : pr.htmlURL ∉ seen ++ [xpr.htmlURL] := by
        simp only [List.mem_append, List.mem_singleton]
        rintro (h | h)
        · exact hseen h
        · exact hxne h.symm
      by_cases hx1 : untilT < prSummaryTime xpr
      · rw [if_pos hx1]; exact ih _ hseen2 hl1x
      · rw [if_neg hx1]
        by_cases hx2 : prSummaryTime xpr < since
        · rw [if_pos hx2]; exact ih _ hseen2 hl1x
        · rw [if_neg hx2, List.filter_cons]
          have hb : ((mkPRSummary H xpr xfiles (prSummaryTime xpr)).url == pr.htmlURL)
              = false := by
            simp [mkPRSummary_url, hxne]
          simp only [hb, Bool.false_eq_true, if_false]
          exact ih _ hseen2 hl1x

/-- C7 counterexample: a batch of two entries sharing one URL, whose
effective timestamp (merged at 30) lies after the window [5, 20], yields
zero output summaries, not exactly one: the first occurrence marks the
URL as seen before the window check filters it out, and the duplicate is
then dropped by the seen-check. -/
theorem claim_C7_counterexample :
    PullSummary trivialHelpers [(prC7, []), (prC7, [])] 5 20 = []
    ∧ (PullSummary trivialHelpers [(prC7, []), (prC7, [])] 5 20).length ≠ 1 := by
  constructor <;> decide

/-- C7 as amended: within one summarization pass the output carries at
most one summary per URL; an entry whose URL already occurred earlier in
the batch is dropped without error (the run equals the run without it);
and when the first occurrence of a URL passes the window check, the
output for that URL is exactly the summary of that first occurrence.
(When the first occurrence is filtered out by the window check it still
claims the URL, so a duplicated URL can also yield zero summaries.) -/
theorem claim_C7_dedup :
    (∀ (H : Helpers) (since untilT : Nat)
        (l : List (PullRequest × List CommitFile)) (url : GoString),
        ((PullSummary H l since untilT).filter (fun r => r.url == url)).length ≤ 1)
    ∧ (∀ (H : Helpers) (since untilT : Nat)
        (l1 : List (PullRequest × List CommitFile))
        (e : PullRequest × List CommitFile)
        (l2 : List (PullRequest × List CommitFile)),
        e.1.htmlURL ∈ l1.map (fun x => x.1.htmlURL) →
        PullSummary H (l1 ++ e :: l2) since untilT
          = PullSummary H (l1 ++ l2) since untilT)
    ∧ (∀ (H : Helpers) (since untilT : Nat)
        (l1 : List (PullRequest × List CommitFile)) (pr : PullRequest)
        (files : List CommitFile) (l2 : List (PullRequest × List CommitFile)),
        pr.htmlURL ∉ l1.map (fun x => x.1.htmlURL) →
        ¬ untilT < prSummaryTime pr → ¬ prSummaryTime pr < since →
        (PullSummary H (l1 ++ (pr, files) :: l2) since untilT).filter
            (fun r => r.url == pr.htmlURL)
          = [mkPRSummary H pr files (prSummaryTime pr)]) := by
  refine ⟨?_, ?_, ?_⟩
  · intro H since untilT l url
    exact pullSummaryAux_filter_le_one H since untilT l [] url
  · intro H since untilT l1 e l2 hmem
    exact pullSummaryAux_drop_dup H since untilT l1 e l2 [] (Or.inr hmem)
  · intro H since untilT l1 pr files l2 hl1 h1 h2
    exact pullSummaryAux_first_wins H since untilT l1 pr files l2 []
      (by simp) hl1 h1 h2

/-- Witness for C7's amended statement: a duplicated in-window entry is
summarized once, the duplicate run equals the single-entry run, and the
emitted row is the first occurrence's summary. -/
theorem claim_C7_dedup_witness :
    PullSummary trivialHelpers ([(basePR, [])] ++ (basePR, []) :: []) 5 20
      = PullSummary trivialHelpers ([(basePR, [])] ++ []) 5 20
    ∧ (PullSummary trivialHelpers ([] ++ (basePR, []) :: []) 5 20).filter
          (fun r => r.url == basePR.htmlURL)
        = [mkPRSummary trivialHelpers basePR [] (prSummaryTime basePR)] :=
  ⟨claim_C7_dedup.2.1 trivialHelpers 5 20 [(basePR, [])] (basePR, []) []
      (by simp),
   claim_C7_dedup.2.2 trivialHelpers 5 20 [] basePR [] [] (by simp)
      (by decide) (by decide)⟩

theorem pullSummaryAux_mem (H : Helpers) (since untilT : Nat)
    (l : List (PullRequest × List CommitFile)) (seen : List GoString)
    (row : PRSummary) (hrow : row ∈ pullSummaryAux H since untilT l seen) :
    ∃ pr files, (pr, files) ∈ l
      ∧ since ≤ prSummaryTime pr ∧ prSummaryTime pr ≤ untilT
      ∧ row = mkPRSummary H pr files (prSummaryTime pr) := by
  induction l generalizing seen with
  | nil => simp [pullSummaryAux] at hrow
  | cons e rest ih =>
    obtain ⟨pr, files⟩ := e
    by_cases hseen : pr.htmlURL ∈ seen
    · rw [pullSummaryAux, if_pos hseen] at hrow
      obtain ⟨p2, f2, hmem, h⟩ := ih _ hrow
      exact ⟨p2, f2, List.mem_cons_of_mem _ hmem, h⟩
    · rw [pullSummaryAux, if_neg hseen] at hrow
      by_cases h1 : untilT < prSummaryTime pr
      · rw [if_pos h1] at hrow
        obtain ⟨p2, f2, hmem, h⟩ := ih _ hrow
        exact ⟨p2, f2, List.mem_cons_of_mem _ hmem, h⟩
      · rw [if_neg h1] at hrow
        by_cases h2 : prSummaryTime pr < since
        · rw [if_pos h2] at hrow
          obtain ⟨p2, f2, hmem, h⟩ := ih _ hrow
          exact ⟨p2, f2, List.mem_cons_of_mem _ hmem, h⟩
        · rw [if_neg h2] at hrow
          rcases List.mem_cons.mp hrow with hrow | hrow
          · exact ⟨pr, files, List.mem_cons_self _ _,
              Nat.not_lt.mp h2, Nat.not_lt.mp h1, hrow⟩
          · obtain ⟨p2, f2, hmem, h⟩ := ih _ hrow
            exact ⟨p2, f2, List.mem_cons_of_mem _ hmem, h⟩

/-- C9: the change summarizer re-applies the report window.  Every row
emitted by `PullSummary` originates from an input entry whose effective
timestamp — merged time, falling back to closed time when merged is zero
— lies in the inclusive window `[since, until]`; hence an input pull
request whose effective timestamp is strictly after `until` or strictly
before `since` contributes no row. -/
theorem claim_C9_summary_window :
    ∀ (H : Helpers) (since untilT : Nat)
      (l : List (PullRequest × List CommitFile)) (row : PRSummary),
      row ∈ PullSummary H l since untilT →
      ∃ pr files, (pr, files) ∈ l
        ∧ since ≤ prSummaryTime pr ∧ prSummaryTime pr ≤ untilT
        ∧ row = mkPRSummary H pr files (prSummaryTime pr) := by
  intro H since untilT l row hrow
  exact pullSummaryAux_mem H since untilT l [] row hrow

/-- Witness for C9: the row summarized from `basePR` does come from an
in-window entry. -/
theorem claim_C9_summary_window_witness :
    ∃ pr files, (pr, files) ∈ [(basePR, ([] : List CommitFile))]
      ∧ 5 ≤ prSummaryTime pr ∧ prSummaryTime pr ≤ 20
      ∧ mkPRSummary trivialHelpers basePR [] (prSummaryTime basePR)
          = mkPRSummary trivialHelpers pr files (prSummaryTime pr) :=
  claim_C9_summary_window trivialHelpers 5 20 [(basePR, [])]
    (mkPRSummary trivialHelpers basePR [] (prSummaryTime basePR)) (by decide)

/-- C8 counterexample: the issue pipeline instance applies no bot rule.
A closed, in-window issue authored by "deploy-bot" (a login with the bot
suffix) is emitted by the `issues` pipeline and appears as the `author`
of the resulting issue summary — the bot exclusion for issue openers
happens only later, in the leaderboard chart. -/
theorem claim_C8_counterexample :
    issues [] 1 10 strClosed getBotIssue [botIssue] = [botIssue]
    ∧ endsWith strBot botIssue.userLogin = true
    ∧ (ClosedIssues trivialHelpers [] 1 10 getBotIssue [] [botIssue]).map
        IssueSummary.author = [strDeployBot] := by
  refine ⟨by decide, by decide, by decide⟩

theorem mergedPullsDetailStep_emit_branch (branches : List GoString)
    (since untilT : Nat) (full f : PullRequest)
    (h : mergedPullsDetailStep branches since untilT full = .emit f) :
    ¬(branches ≠ [] ∧ full.baseRef ∉ branches.map toLower) := by
  intro hc
  rw [mergedPullsDetailStep, if_pos hc] at h
  exact Step.noConfusion h

/-- C8 as amended: the pull-request pipeline instance rejects an item
whose author is a bot (with `isBot` modelled from the spec as the login
carrying the "bot" suffix), and an author login ending in "bot" is never
tallied by the issue-opener chart, regardless of allow-list membership;
the issue pipeline instance itself applies no bot rule. -/
theorem claim_C8_bot_rule :
    (∀ (users branches : List GoString) (since untilT : Nat)
        (get : Nat → Nat → Except GoErr PullRequest) (pr : PullRequest),
        isBot pr.userLogin = true →
        ∀ f, mergedPullsStep users branches since untilT get pr ≠ .emit f)
    ∧ (∀ (is : List IssueSummary) (users : List GoString) (a : GoString),
        a ∈ issueOpenerAuthors is users → endsWith strBot a = false) := by
  constructor
  · intro users branches since untilT get pr hbot f hcon
    simp only [mergedPullsStep] at hcon
    repeat' split at hcon
    all_goals try exact Step.noConfusion hcon
  · intro is users a ha
    simp only [issueOpenerAuthors, List.mem_filterMap] at ha
    obtain ⟨i, hi, hfi⟩ := ha
    by_cases hA : users ≠ [] ∧ toLower i.author ∉ users.map toLower
    · rw [if_pos hA] at hfi
      exact Option.noConfusion hfi
    · rw [if_neg hA] at hfi
      by_cases hB : endsWith strBot i.author = true
      · rw [if_pos hB] at hfi
        exact Option.noConfusion hfi
      · rw [if_neg hB] at hfi
        obtain rfl : i.author = a := Option.some.inj hfi
        simpa using hB

/-- Witness for C8's amended statement: a pull request authored by
"deploy-bot" is not emitted, and "deploy-bot" is filtered out of the
opener tally even though it appears in an issue summary. -/
theorem claim_C8_bot_rule_witness :
    mergedPullsStep [] [] 1 10 getOkBase { basePR with userLogin := strDeployBot }
        ≠ .emit fullBase
    ∧ (strDeployBot ∈ issueOpenerAuthors
          [mkIssueSummary trivialHelpers [] botIssue] [] →
        endsWith strBot strDeployBot = false) :=
  ⟨claim_C8_bot_rule.1 [] [] 1 10 getOkBase
      { basePR with userLogin := strDeployBot } (by decide) fullBase,
   claim_C8_bot_rule.2 [mkIssueSummary trivialHelpers [] botIssue] [] strDeployBot⟩

/-- C10 counterexample: with the allow-list ["Main"] (which contains an
uppercase letter), a pull request whose fetched detail targets branch
"main" passes the branch filter and is emitted — so an uppercase
allow-list entry does match a pull request, namely one whose ref equals
the entry lowercased. -/
theorem claim_C10_counterexample :
    mergedPullsStep [] [strMainUpper] 5 20 getC10 basePR = .emit fullC10
    ∧ hasUpper strMainUpper = true
    ∧ fullC10.baseRef ≠ strMainUpper := by
  refine ⟨by decide, by decide, by decide⟩

theorem lowerCode_not_upper (c : Nat) : ¬(65 ≤ lowerCode c ∧ lowerCode c ≤ 90) := by
  unfold lowerCode
  split_ifs with h <;> omega

theorem hasUpper_toLower (s : GoString) : hasUpper (toLower s) = false := by
  induction s with
  | nil => rfl
  | cons c rest ih =>
    have hc : isUpperCode (lowerCode c) = false :=
      decide_eq_false (lowerCode_not_upper c)
    simp only [toLower, List.map_cons, hasUpper, List.any_cons, hc, Bool.false_or]
    simpa [hasUpper, toLower] using ih

theorem not_mem_map_toLower (branches : List GoString) (s : GoString)
    (h : hasUpper s = true) : s ∉ branches.map toLower := by
  intro hmem
  rcases List.mem_map.mp hmem with ⟨b, _, hEq⟩
  rw [← hEq, hasUpper_toLower] at h
  exact Bool.noConfusion h

/-- C10 as amended: the branch allow-list is case-asymmetric.  With a
non-empty allow-list, a pull request whose fetched base branch ref
contains an uppercase ASCII letter is never emitted (the lowercased
entries cannot equal it); but an allow-list entry containing an
uppercase letter still matches pull requests, exactly those whose ref
equals the entry's lowercased form — while the user filter lowercases
both sides, so a login matches its allow-list entry in any case. -/
theorem claim_C10_branch_case :
    (∀ (users branches : List GoString) (since untilT : Nat)
        (get : Nat → Nat → Except GoErr PullRequest) (pr full : PullRequest),
        branches ≠ [] →
        get pr.number (prCacheTime pr) = .ok full →
        hasUpper full.baseRef = true →
        ∀ f, mergedPullsStep users branches since untilT get pr ≠ .emit f)
    ∧ (∀ (branches : List GoString) (b : GoString), b ∈ branches →
        toLower b ∈ branches.map toLower)
    ∧ (∀ (users : List GoString) (u login : GoString), u ∈ users →
        toLower login = toLower u → toLower login ∈ users.map toLower) := by
  refine ⟨?_, ?_, ?_⟩
  · intro users branches since untilT get pr full hbr hget hup f hcon
    simp only [mergedPullsStep, hget] at hcon
    repeat' split at hcon
    all_goals try exact Step.noConfusion hcon
    all_goals {
      have hnotand := mergedPullsDetailStep_emit_branch _ _ _ _ _ hcon
      have hmem : full.baseRef ∈ branches.map toLower := by
        by_contra hne
        exact hnotand ⟨hbr, hne⟩
      exact absurd hmem (not_mem_map_toLower branches full.baseRef hup)
    }
  · intro branches b hb
    exact List.mem_map_of_mem _ hb
  · intro users u login hu hEq
    rw [hEq]
    exact List.mem_map_of_mem _ hu

/-- Witness for C10's amended statement: a detail targeting branch
"Main" is rejected under the allow-list ["Main"], while the lowercased
entry "main" is in the match set. -/
theorem claim_C10_branch_case_witness :
    mergedPullsStep [] [strMainUpper] 5 20 getUpperRef basePR ≠ .emit fullUpperRef
    ∧ toLower strMainUpper ∈ [strMainUpper].map toLower :=
  ⟨claim_C10_branch_case.1 [] [strMainUpper] 5 20 getUpperRef basePR fullUpperRef
      (by decide) rfl (by decide) fullUpperRef,
   claim_C10_branch_case.2.1 [strMainUpper] strMainUpper (by decide)⟩

end Pullsheet
